import Mathlib

/-!
Verification of the database merge tool (src/main.rs).

Shallow embedding notes:
* Rust `i32`/`i64` values are modelled as unbounded `Int`; the only machine
  cast the claims touch is the `as i32` truncation in the JSON member
  rewriter, modelled exactly by `toI32` (reduction modulo 2^32).
* `serde_json` values are modelled by the inductive `Json` with a compact
  printer `Json.render` and a fuel-based parser `Json.parse`; like
  `serde_json::from_str`, the parser rejects trailing garbage.  Floating
  point literals and duplicate object keys are outside the modelled
  fragment (no claim touches them).
* The `HashMap<i32, i32>` registries are modelled as association lists in
  which a later insert shadows earlier entries (`mapInsert` prepends,
  `mapGet` returns the most recent binding), observationally equal to the
  Rust map for the operations the program uses.
-/

namespace MergeTool

/-! ## Mapping registry (HashMap<i32, i32> in the source) -/

abbrev Mapping := List (Int × Int)

/-- `HashMap::insert`: a later insert shadows earlier bindings. -/
def mapInsert (m : Mapping) (k v : Int) : Mapping := (k, v) :: m

/-- `HashMap::get`. -/
def mapGet (m : Mapping) (k : Int) : Option Int :=
  (m.find? (fun p => p.1 == k)).map Prod.snd

/-- `map.get(&x).copied().unwrap_or(x)` — the lookup used at
src/main.rs:668-674 and 716-722. -/
def lookupId (m : Mapping) (x : Int) : Int := (mapGet m x).getD x

/-- The mapping-generation loops of `merge_accounts` (src/main.rs:316-321),
`merge_players` (431-436) and `merge_clans` (519-524): for every row id,
`mapping.insert(old_id, old_id + offset)`. -/
def buildMapping (m : Mapping) (ids : List Int) (offset : Int) : Mapping :=
  ids.foldl (fun acc i => mapInsert acc i (i + offset)) m

/-- Rust `as i32` truncating cast (used on member ids at src/main.rs:606). -/
def toI32 (n : Int) : Int := (n + 2 ^ 31) % 2 ^ 32 - 2 ^ 31

/-! ## JSON model -/

inductive Json where
  | null : Json
  | bool : Bool → Json
  | num : Int → Json
  | str : String → Json
  | arr : List Json → Json
  | obj : List (String × Json) → Json

def escapeChar (c : Char) : List Char :=
  if c = '"' then ['\\', '"']
  else if c = '\\' then ['\\', '\\']
  else if c = '\n' then ['\\', 'n']
  else if c = '\t' then ['\\', 't']
  else if c = '\r' then ['\\', 'r']
  else [c]

def escapeString (s : String) : String :=
  String.mk (s.data.map escapeChar).flatten

mutual

/-- Compact serialization, as `serde_json::to_string`. -/
def Json.render : Json → String
  | Json.null => "null"
  | Json.bool true => "true"
  | Json.bool false => "false"
  | Json.num n => toString n
  | Json.str s => "\"" ++ escapeString s ++ "\""
  | Json.arr l => "[" ++ renderItems l ++ "]"
  | Json.obj kvs => "\x7b" ++ renderFields kvs ++ "\x7d"

def renderItems : List Json → String
  | [] => ""
  | [x] => Json.render x
  | x :: y :: rest => Json.render x ++ "," ++ renderItems (y :: rest)

def renderFields : List (String × Json) → String
  | [] => ""
  | [(k, v)] => "\"" ++ escapeString k ++ "\":" ++ Json.render v
  | (k, v) :: y :: rest =>
      "\"" ++ escapeString k ++ "\":" ++ Json.render v ++ "," ++ renderFields (y :: rest)

end

def lbraceC : Char := Char.ofNat 123

def rbraceC : Char := Char.ofNat 125

def skipWs : List Char → List Char
  | [] => []
  | c :: rest =>
      if c = ' ' ∨ c = '\n' ∨ c = '\t' ∨ c = '\r' then skipWs rest else c :: rest

def unescapeChar (c : Char) : Option Char :=
  if c = '"' then some '"'
  else if c = '\\' then some '\\'
  else if c = '/' then some '/'
  else if c = 'n' then some '\n'
  else if c = 't' then some '\t'
  else if c = 'r' then some '\r'
  else none

/-- Parse the body of a JSON string literal (after the opening quote). -/
def parseStrChars : List Char → Option (List Char × List Char)
  | [] => none
  | c :: rest =>
      if c = '"' then some ([], rest)
      else if c = '\\' then
        match rest with
        | [] => none
        | e :: rest2 =>
            match unescapeChar e with
            | some u =>
                match parseStrChars rest2 with
                | some (s, r) => some (u :: s, r)
                | none => none
            | none => none
      else
        match parseStrChars rest with
        | some (s, r) => some (c :: s, r)
        | none => none

def parseDigits : List Char → Nat → Nat × List Char
  | [], acc => (acc, [])
  | c :: rest, acc =>
      if c.isDigit then parseDigits rest (acc * 10 + (c.toNat - 48)) else (acc, c :: rest)

mutual

def parseVal : Nat → List Char → Option (Json × List Char)
  | 0, _ => none
  | fuel + 1, cs =>
      match skipWs cs with
      | [] => none
      | c :: rest =>
          if c = 'n' then
            match rest with
            | 'u' :: 'l' :: 'l' :: r => some (Json.null, r)
            | _ => none
          else if c = 't' then
            match rest with
            | 'r' :: 'u' :: 'e' :: r => some (Json.bool true, r)
            | _ => none
          else if c = 'f' then
            match rest with
            | 'a' :: 'l' :: 's' :: 'e' :: r => some (Json.bool false, r)
            | _ => none
          else if c = '"' then
            match parseStrChars rest with
            | some (s, r) => some (Json.str (String.mk s), r)
            | none => none
          else if c = '-' then
            match rest with
            | d :: _ =>
                if d.isDigit then
                  match parseDigits rest 0 with
                  | (n, r) => some (Json.num (-(Int.ofNat n)), r)
                else none
            | [] => none
          else if c.isDigit then
            match parseDigits (c :: rest) 0 with
            | (n, r) => some (Json.num (Int.ofNat n), r)
          else if c = '[' then
            match skipWs rest with
            | ']' :: r => some (Json.arr [], r)
            | other => parseArrElems fuel other
          else if c = lbraceC then
            match skipWs rest with
            | d :: r => if d = rbraceC then some (Json.obj [], r) else parseObjElems fuel (d :: r)
            | [] => none
          else none

def parseArrElems : Nat → List Char → Option (Json × List Char)
  | 0, _ => none
  | fuel + 1, cs =>
      match parseVal fuel cs with
      | some (v, r) =>
          match skipWs r with
          | ',' :: r2 =>
              match parseArrElems fuel r2 with
              | some (Json.arr vs, r3) => some (Json.arr (v :: vs), r3)
              | _ => none
          | ']' :: r2 => some (Json.arr [v], r2)
          | _ => none
      | none => none

def parseObjElems : Nat → List Char → Option (Json × List Char)
  | 0, _ => none
  | fuel + 1, cs =>
      match skipWs cs with
      | '"' :: rest =>
          match parseStrChars rest with
          | some (k, r) =>
              match skipWs r with
              | ':' :: r2 =>
                  match parseVal fuel r2 with
                  | some (v, r3) =>
                      match skipWs r3 with
                      | ',' :: r4 =>
                          match parseObjElems fuel r4 with
                          | some (Json.obj kvs, r5) =>
                              some (Json.obj ((String.mk k, v) :: kvs), r5)
                          | _ => none
                      | d :: r4 =>
                          if d = rbraceC then some (Json.obj [(String.mk k, v)], r4) else none
                      | [] => none
                  | none => none
              | _ => none
          | none => none
      | _ => none

end

/-- `serde_json::from_str`: parse a complete JSON document. -/
def Json.parse (s : String) : Option Json :=
  match parseVal (s.length + 8) s.data with
  | some (j, r) => if skipWs r = [] then some j else none
  | none => none

/-! ## Clan `members` rewriter (src/main.rs:587-649) -/

/-- `serde_json::Map::get`. -/
def objGet (fields : List (String × Json)) (k : String) : Option Json :=
  (fields.find? (fun p => p.1 == k)).map Prod.snd

/-- `serde_json::Map::insert`: replace the binding in place, append if absent. -/
def objInsert : List (String × Json) → String → Json → List (String × Json)
  | [], k, v => [(k, v)]
  | (k', v') :: rest, k, v =>
      if k' = k then (k, v) :: rest else (k', v') :: objInsert rest k v

def i64Min : Int := -9223372036854775808

def i64Max : Int := 9223372036854775807

/-- `serde_json::Value::as_i64`. -/
def Json.asI64 : Json → Option Int
  | Json.num n => if i64Min ≤ n ∧ n ≤ i64Max then some n else none
  | _ => none

/-- The member-id rewrite shared by both rewriter paths
(src/main.rs:604-612 and 638-645): read the `id` field, `as_i64` it, cast
to `i32`, and replace it only when the player mapping has an entry. -/
def rewriteMemberFields (pm : Mapping) (fields : List (String × Json)) :
    List (String × Json) :=
  match objGet fields "id" with
  | some v =>
      match Json.asI64 v with
      | some oldId =>
          match mapGet pm (toI32 oldId) with
          | some newId => objInsert fields "id" (Json.num newId)
          | none => fields
      | none => fields
  | none => fields

/-- One element of the fallback pass (src/main.rs:637-646): rewrite raw
objects in place, leave every other element untouched. -/
def rewriteElement (pm : Mapping) : Json → Json
  | Json.obj fields => Json.obj (rewriteMemberFields pm fields)
  | other => other

/-- `update_clan_members_json_as_objects` (src/main.rs:634-649). -/
def update_clan_members_json_as_objects (pm : Mapping) (jsonStr : String) :
    Except Unit String :=
  match Json.parse jsonStr with
  | some (Json.arr members) =>
      Except.ok (Json.render (Json.arr (members.map (rewriteElement pm))))
  | _ => Except.error ()

/-- `match member_value { String(s) => s.clone(), other => other.to_string() }`
(src/main.rs:594-597). -/
def memberPayload : Json → String
  | Json.str s => s
  | other => other.render

/-- The element loop of `update_clan_members_json` (src/main.rs:592-625):
parse each payload as an object (an unparsable payload aborts with an
error), rewrite its id, and keep string encoding; the first raw-object
element makes the whole function restart as
`update_clan_members_json_as_objects` on the original text. -/
def updateMembersGo (pm : Mapping) (jsonStr : String) :
    List Json → List String → Except Unit String
  | [], acc =>
      Except.ok (Json.render (Json.arr ((acc.reverse).map Json.str)))
  | m :: rest, acc =>
      match Json.parse (memberPayload m) with
      | some (Json.obj fields) =>
          match m with
          | Json.str _ =>
              updateMembersGo pm jsonStr rest
                (Json.render (Json.obj (rewriteMemberFields pm fields)) :: acc)
          | _ => update_clan_members_json_as_objects pm jsonStr
      | _ => Except.error ()

/-- `update_clan_members_json` (src/main.rs:587-631). -/
def update_clan_members_json (pm : Mapping) (jsonStr : String) :
    Except Unit String :=
  match Json.parse jsonStr with
  | some (Json.arr members) => updateMembersGo pm jsonStr members []
  | _ => Except.error ()

def Json.isStr : Json → Bool
  | Json.str _ => true
  | _ => false

/-- Parse a payload as `serde_json::Map` does: succeed only on an object. -/
def parseToObj (s : String) : Option (List (String × Json)) :=
  match Json.parse s with
  | some (Json.obj fields) => some fields
  | _ => none

/-- A string element whose payload parses to a JSON object. -/
def isStrObjElem (m : Json) : Bool :=
  match m with
  | Json.str s => (parseToObj s).isSome
  | _ => false

/-- A non-string element whose serialization parses back to a JSON object
(in practice: a raw object element). -/
def isNonStrObjElem (m : Json) : Bool :=
  !m.isStr && (parseToObj m.render).isSome

/-- How the string-mode scan rewrites one string payload. -/
def rewriteStrPayload (pm : Mapping) (s : String) : String :=
  match Json.parse s with
  | some (Json.obj fields) => Json.render (Json.obj (rewriteMemberFields pm fields))
  | _ => s

/-- Output of the string-mode scan for one element. -/
def strElemOut (pm : Mapping) : Json → Json
  | Json.str s => Json.str (rewriteStrPayload pm s)
  | other => other

/-! ## Scalar SQL rewrites -/

/-- The clan-reference SQL of `merge_players` (src/main.rs:466-469):
UPDATE ... SET clan_col = clan_col + offset WHERE clan_col != -1.
NULL never matches the predicate, so it stays NULL. -/
def updateClanColumn (offset : Int) : Option Int → Option Int
  | none => none
  | some x => if x = -1 then some x else some (x + offset)

/-- The bulk primary-id SQL of `merge_players`/`merge_clans`
(src/main.rs:461 and 551): UPDATE temp SET id = id + offset. -/
def applyTempIdOffset (offset : Int) (ids : List Int) : List Int :=
  ids.map (fun i => i + offset)

/-! ## Orchestration model of `execute`/`run_merge` (src/main.rs:103-203)

Store I/O is shallow: the two connections' side effects are recorded as an
ordered `Event` trace, and a `Faults` oracle says which step's store
round-trips fail (a failing query makes the step return its error before
doing its work, as any `?` inside it would).  All data the steps read from
the source store is in `SourceDB`; the rows the verifier's queries see in
the target store are in `Env`. -/

inductive StepName where
  | ensureOldId | accounts | players | clans | gifts | others | verify
deriving DecidableEq

inductive MergeError where
  | dbFault : StepName → MergeError
  | malformedJson : MergeError
deriving DecidableEq

inductive Event where
  | beginTxn : Nat → Event
  | setFk : Bool → Event
  | stepStart : StepName → Event
  | catalogCheck : String → Event
  | alterTable : String → Event
  | insertRow : String → Int → Event
  | insertSelect : String → List Int → Event
  | createTemp : String → Event
  | updateTemp : String → Event
  | dropTemp : String → Event
  | verifyReport : Nat → Nat → Event
  | commitPrompt : Event
  | commitTxn : Nat → Event
  | rollbackTxn : Nat → Event
deriving DecidableEq

structure SourceDB where
  accounts : List Int
  players : List Int
  clans : List (Int × Option String)
  giftHistories : List Int
  playerVips : List Int

structure TargetPlayerRow where
  id : Int
  name : String
  accountId : Int
deriving DecidableEq

structure Faults where
  ensureOldId : Bool
  accounts : Bool
  players : Bool
  clans : Bool
  gifts : Bool
  others : Bool
  verify : Bool

structure Env where
  db : SourceDB
  faults : Faults
  accountHasOldId : Bool
  playerHasOldId : Bool
  targetPlayers : List TargetPlayerRow
  targetAccounts : List Int

structure MergeCfg where
  id_offset : Int
  target_server : Nat

structure RegMaps where
  account : Mapping
  player : Mapping
  clan : Mapping
deriving DecidableEq

structure MergeState where
  maps : RegMaps
  events : List Event
deriving DecidableEq

def clanTable (cfg : MergeCfg) : String := "clan_sv" ++ toString cfg.target_server

/-- `ensure_old_id_columns` (src/main.rs:205-243): catalog checks always
run; the ALTER runs only when the column is missing and not in dry-run. -/
def ensureEmits (env : Env) (dry : Bool) : List Event :=
  Event.stepStart StepName.ensureOldId ::
    (if env.faults.ensureOldId then []
     else
       (Event.catalogCheck "account" ::
         (if env.accountHasOldId then []
          else if dry then [] else [Event.alterTable "account"])) ++
       (Event.catalogCheck "player" ::
         (if env.playerHasOldId then []
          else if dry then [] else [Event.alterTable "player"])))

def ensureStep (env : Env) (dry : Bool) (st : MergeState) :
    MergeState × Option MergeError :=
  ({ st with events := st.events ++ ensureEmits env dry },
   if env.faults.ensureOldId then some (MergeError.dbFault StepName.ensureOldId) else none)

/-- `merge_accounts` (src/main.rs:298-407): per row, record the mapping and
(live only) insert the row with primary id old_id + offset. -/
def accEmits (cfg : MergeCfg) (env : Env) (dry : Bool) : List Event :=
  Event.stepStart StepName.accounts ::
    (if env.faults.accounts then []
     else if dry then []
     else env.db.accounts.map (fun i => Event.insertRow "account" (i + cfg.id_offset)))

def mergeAccounts (cfg : MergeCfg) (env : Env) (dry : Bool) (st : MergeState) :
    MergeState × Option MergeError :=
  ({ st with
      events := st.events ++ accEmits cfg env dry,
      maps := { st.maps with
        account := if env.faults.accounts then st.maps.account
          else buildMapping st.maps.account env.db.accounts cfg.id_offset } },
   if env.faults.accounts then some (MergeError.dbFault StepName.accounts) else none)

/-- `merge_players` (src/main.rs:409-494): mapping first, then (live only)
the catalog-driven temp-table pipeline whose bulk insert carries ids
shifted by the offset. -/
def playersEmits (cfg : MergeCfg) (env : Env) (dry : Bool) : List Event :=
  Event.stepStart StepName.players ::
    (if env.faults.players then []
     else if dry then []
     else [Event.catalogCheck "player", Event.createTemp "temp_player",
           Event.updateTemp "temp_player", Event.updateTemp "temp_player",
           Event.updateTemp "temp_player", Event.alterTable "temp_player",
           Event.updateTemp "temp_player",
           Event.insertSelect "player" (applyTempIdOffset cfg.id_offset env.db.players),
           Event.dropTemp "temp_player"])

def mergePlayers (cfg : MergeCfg) (env : Env) (dry : Bool) (st : MergeState) :
    MergeState × Option MergeError :=
  ({ st with
      events := st.events ++ playersEmits cfg env dry,
      maps := { st.maps with
        player := if env.faults.players then st.maps.player
          else buildMapping st.maps.player env.db.players cfg.id_offset } },
   if env.faults.players then some (MergeError.dbFault StepName.players) else none)

/-- The members-rewrite loop of `merge_clans` (src/main.rs:558-570): a NULL
or empty members value is skipped entirely; otherwise the rewriter runs and
its failure aborts the step. -/
def clanJsonScan (pm : Mapping) : List (Int × Option String) → List Event × Option MergeError
  | [] => ([], none)
  | (_, mem) :: rest =>
      let s := mem.getD ""
      if s.isEmpty then clanJsonScan pm rest
      else
        match update_clan_members_json pm s with
        | Except.ok _ =>
            let r := clanJsonScan pm rest
            (Event.updateTemp "temp_clan" :: r.1, r.2)
        | Except.error _ => ([], some MergeError.malformedJson)

/-- `merge_clans` (src/main.rs:496-585). -/
def clansEmitsErr (cfg : MergeCfg) (env : Env) (dry : Bool) (pm : Mapping) :
    List Event × Option MergeError :=
  if env.faults.clans then
    ([Event.stepStart StepName.clans], some (MergeError.dbFault StepName.clans))
  else if dry then ([Event.stepStart StepName.clans], none)
  else
    let pre := [Event.stepStart StepName.clans, Event.catalogCheck (clanTable cfg),
                Event.createTemp "temp_clan", Event.updateTemp "temp_clan"]
    match clanJsonScan pm env.db.clans with
    | (evs, some e) => (pre ++ evs, some e)
    | (evs, none) =>
        (pre ++ evs ++
          [Event.insertSelect (clanTable cfg)
             (applyTempIdOffset cfg.id_offset (env.db.clans.map Prod.fst)),
           Event.dropTemp "temp_clan"], none)

def mergeClans (cfg : MergeCfg) (env : Env) (dry : Bool) (st : MergeState) :
    MergeState × Option MergeError :=
  let r := clansEmitsErr cfg env dry st.maps.player
  ({ st with
      events := st.events ++ r.1,
      maps := { st.maps with
        clan := if env.faults.clans then st.maps.clan
          else buildMapping st.maps.clan (env.db.clans.map Prod.fst) cfg.id_offset } },
   r.2)

/-- `merge_gift_code_histories` (src/main.rs:651-697): player_id is looked
up with identity on miss; rows inserted live only. -/
def giftEmits (env : Env) (dry : Bool) (pm : Mapping) : List Event :=
  Event.stepStart StepName.gifts ::
    (if env.faults.gifts then []
     else if dry then []
     else env.db.giftHistories.map
       (fun pid => Event.insertRow "gift_code_histories" (lookupId pm pid)))

def mergeGifts (_cfg : MergeCfg) (env : Env) (dry : Bool) (st : MergeState) :
    MergeState × Option MergeError :=
  ({ st with events := st.events ++ giftEmits env dry st.maps.player },
   if env.faults.gifts then some (MergeError.dbFault StepName.gifts) else none)

/-- `merge_other_tables` (src/main.rs:699-744): same pattern for player_vip. -/
def otherEmits (env : Env) (dry : Bool) (pm : Mapping) : List Event :=
  Event.stepStart StepName.others ::
    (if env.faults.others then []
     else if dry then []
     else env.db.playerVips.map
       (fun pid => Event.insertRow "player_vip" (lookupId pm pid)))

def mergeOthers (_cfg : MergeCfg) (env : Env) (dry : Bool) (st : MergeState) :
    MergeState × Option MergeError :=
  ({ st with events := st.events ++ otherEmits env dry st.maps.player },
   if env.faults.others then some (MergeError.dbFault StepName.others) else none)

/-- The orphan query of `verify_merge` (src/main.rs:750-754): players whose
account_id matches no account row. -/
def verifyOrphans (env : Env) : List TargetPlayerRow :=
  env.targetPlayers.filter (fun p => !(env.targetAccounts.contains p.accountId))

/-- `verify_merge` (src/main.rs:746-791): one count plus a sample capped by
LIMIT 20. -/
def verifyEmits (env : Env) : List Event :=
  Event.stepStart StepName.verify ::
    (if env.faults.verify then []
     else [Event.verifyReport (verifyOrphans env).length
             ((verifyOrphans env).take 20).length])

def verifyStep (env : Env) (st : MergeState) : MergeState × Option MergeError :=
  ({ st with events := st.events ++ verifyEmits env },
   if env.faults.verify then some (MergeError.dbFault StepName.verify) else none)

/-- Sequencing of fallible steps: the `?` operator. -/
def andThen (r : MergeState × Option MergeError)
    (f : MergeState → MergeState × Option MergeError) :
    MergeState × Option MergeError :=
  match r with
  | (st, none) => f st
  | (st, some e) => (st, some e)

/-- `run_merge` (src/main.rs:178-203). -/
def runMerge (cfg : MergeCfg) (env : Env) (dry : Bool) (st0 : MergeState) :
    MergeState × Option MergeError :=
  andThen
    (andThen
      (andThen
        (andThen
          (andThen
            (andThen
              (andThen
                (ensureStep env dry
                  { st0 with events := st0.events ++ [Event.setFk false] })
                (mergeAccounts cfg env dry))
              (mergePlayers cfg env dry))
            (mergeClans cfg env dry))
          (mergeGifts cfg env dry))
        (mergeOthers cfg env dry))
      (fun st => ({ st with events := st.events ++ [Event.setFk true] }, none)))
    (verifyStep env)

def initState : MergeState :=
  { maps := { account := [], player := [], clan := [] }, events := [] }

/-- State after the transaction-opening phase (src/main.rs:138-141):
START TRANSACTION on both stores is skipped in dry-run. -/
def startState (dry : Bool) : MergeState :=
  if dry then initState
  else { initState with events := [Event.beginTxn 1, Event.beginTxn 2] }

/-- `execute` (src/main.rs:103-176): transactions open only outside
dry-run; on success of the merge the commit decision is read from the
operator; on failure both transactions are rolled back (live mode). -/
def execute (cfg : MergeCfg) (env : Env)
    (dry answerProceed answerCommit : Bool) : MergeState × Option MergeError :=
  if !dry && !answerProceed then (initState, none)
  else
    match runMerge cfg env dry (startState dry) with
    | (st, none) =>
        if dry then (st, none)
        else
          let st1 := { st with events := st.events ++ [Event.commitPrompt] }
          if answerCommit then
            ({ st1 with events := st1.events ++ [Event.commitTxn 1, Event.commitTxn 2] }, none)
          else
            ({ st1 with events := st1.events ++ [Event.rollbackTxn 1, Event.rollbackTxn 2] }, none)
    | (st, some e) =>
        if dry then (st, some e)
        else ({ st with events := st.events ++ [Event.rollbackTxn 1, Event.rollbackTxn 2] }, some e)

/-- The merger steps reached so far, in trace order. -/
def stepStartsOf (evs : List Event) : List StepName :=
  evs.filterMap (fun e => match e with | Event.stepStart s => some s | _ => none)

/-- Events a dry run must never emit: opening or committing a transaction
and any statement that writes to the target (ALTER, INSERT, UPDATE,
temp-table management). -/
def Event.isForbiddenInDry : Event → Bool
  | Event.beginTxn _ => true
  | Event.alterTable _ => true
  | Event.insertRow _ _ => true
  | Event.insertSelect _ _ => true
  | Event.createTemp _ => true
  | Event.updateTemp _ => true
  | Event.dropTemp _ => true
  | Event.commitTxn _ => true
  | _ => false

/-- Registry contents after the merge sequence: built up to the first
faulted step, and never touched after the clan step. -/
def mapsAfter (cfg : MergeCfg) (env : Env) (m : RegMaps) : RegMaps :=
  if env.faults.ensureOldId then m
  else if env.faults.accounts then m
  else
    let mA : RegMaps := { m with account := buildMapping m.account env.db.accounts cfg.id_offset }
    if env.faults.players then mA
    else
      let mP : RegMaps := { mA with player := buildMapping mA.player env.db.players cfg.id_offset }
      if env.faults.clans then mP
      else { mP with clan := buildMapping mP.clan (env.db.clans.map Prod.fst) cfg.id_offset }

/-! ## Concrete instances used by witnesses and counterexamples -/

def noFaults : Faults :=
  { ensureOldId := false, accounts := false, players := false, clans := false,
    gifts := false, others := false, verify := false }

def cfg0 : MergeCfg := { id_offset := 1000, target_server := 5 }

def db0 : SourceDB :=
  { accounts := [1], players := [2], clans := [], giftHistories := [7], playerVips := [] }

def env0 : Env :=
  { db := db0, faults := noFaults, accountHasOldId := true, playerHasOldId := true,
    targetPlayers := [], targetAccounts := [] }

/-- `env0` with the account step's store I/O failing. -/
def envF : Env := { env0 with faults := { noFaults with accounts := true } }

/-- `env0` with the verification query failing. -/
def envV : Env := { env0 with faults := { noFaults with verify := true } }

/-! # Theorems -/

/-! ## Mapping registry lemmas -/

theorem mapGet_insert (m : Mapping) (k v x : Int) :
    mapGet (mapInsert m k v) x = if x = k then some v else mapGet m x := by
  by_cases h : x = k
  · subst h
    simp [mapGet, mapInsert, List.find?]
  · have hk : (((k, v) : Int × Int).1 == x) = false := by
      simp [beq_iff_eq]
      omega
    simp [mapGet, mapInsert, List.find?, hk, h]

theorem mapGet_buildMapping (ids : List Int) (offset : Int) :
    ∀ (m : Mapping) (x : Int),
      mapGet (buildMapping m ids offset) x =
        if x ∈ ids then some (x + offset) else mapGet m x := by
  induction ids with
  | nil => intro m x; simp [buildMapping]
  | cons i rest ih =>
      intro m x
      have hstep : buildMapping m (i :: rest) offset =
          buildMapping (mapInsert m i (i + offset)) rest offset := rfl
      rw [hstep, ih]
      by_cases hx : x ∈ rest
      · simp [hx, List.mem_cons]
      · by_cases hxi : x = i
        · subst hxi
          simp [hx, mapGet_insert]
        · simp [hx, hxi, mapGet_insert, List.mem_cons]

/-- Claim C1: for every entity kind (the account, player and clan mergers all run
the same generation loop, embedded as `buildMapping`), every id read from
the source maps to id + offset after the pass; and the rows the target
receives carry primary id = source id + offset, both in the explicit
account inserts and in the bulk id arithmetic of the temp-table strategy. -/
theorem mapping_offset_policy :
    (∀ (m : Mapping) (ids : List Int) (offset x : Int),
        x ∈ ids → lookupId (buildMapping m ids offset) x = x + offset) ∧
    (∀ (cfg : MergeCfg) (env : Env) (i : Int),
        env.faults.accounts = false → i ∈ env.db.accounts →
        Event.insertRow "account" (i + cfg.id_offset) ∈ accEmits cfg env false) ∧
    (∀ (offset : Int) (ids : List Int) (i : Int),
        i ∈ ids → i + offset ∈ applyTempIdOffset offset ids) := by
  refine ⟨?_, ?_, ?_⟩
  · intro m ids offset x hx
    simp [lookupId, mapGet_buildMapping, hx]
  · intro cfg env i hf hi
    have hemits : accEmits cfg env false =
        Event.stepStart StepName.accounts ::
          env.db.accounts.map (fun j => Event.insertRow "account" (j + cfg.id_offset)) := by
      simp [accEmits, hf]
    rw [hemits]
    exact List.mem_cons_of_mem _ (List.mem_map_of_mem _ hi)
  · intro offset ids i hi
    exact List.mem_map_of_mem _ hi

theorem mapping_offset_policy_witness :
    (5 : Int) ∈ [(5 : Int), 9] ∧
    lookupId (buildMapping [] [5, 9] 1000 : Mapping) 5 = 5 + 1000 ∧
    env0.faults.accounts = false ∧ (1 : Int) ∈ env0.db.accounts ∧
    Event.insertRow "account" (1 + cfg0.id_offset) ∈ accEmits cfg0 env0 false ∧
    ((2 : Int) + cfg0.id_offset) ∈ applyTempIdOffset cfg0.id_offset env0.db.players :=
  ⟨by decide,
   mapping_offset_policy.1 [] [5, 9] 1000 5 (by decide),
   rfl, by decide,
   mapping_offset_policy.2.1 cfg0 env0 1 rfl (by decide),
   mapping_offset_policy.2.2 cfg0.id_offset env0.db.players 2 (by decide)⟩

/-- Claim C2: the clan-reference update of `merge_players` leaves the sentinel -1
unchanged for any offset, offsets every non-sentinel value, and does not
touch NULL. -/
theorem clan_sentinel_preserved :
    (∀ offset : Int, updateClanColumn offset (some (-1)) = some (-1)) ∧
    (∀ (offset x : Int), x ≠ -1 → updateClanColumn offset (some x) = some (x + offset)) ∧
    (∀ offset : Int, updateClanColumn offset none = none) := by
  refine ⟨fun offset => rfl, ?_, fun offset => rfl⟩
  intro offset x hx
  simp [updateClanColumn, hx]

theorem clan_sentinel_preserved_witness :
    updateClanColumn 1000 (some (-1)) = some (-1) ∧
    (3 : Int) ≠ -1 ∧ updateClanColumn 1000 (some 3) = some (3 + 1000) :=
  ⟨clan_sentinel_preserved.1 1000, by decide,
   clan_sentinel_preserved.2.1 1000 3 (by decide)⟩

/-- Claim C6: lookup is the identity on misses: an id outside the generated set
is returned unchanged by the scalar lookup (`gift_code_histories`,
`player_vip`), and a member id absent from the player mapping leaves the
member object untouched. -/
theorem lookup_identity_on_miss :
    (∀ (ids : List Int) (offset x : Int),
        x ∉ ids → lookupId (buildMapping [] ids offset) x = x) ∧
    (∀ (pm : Mapping) (fields : List (String × Json)) (oldId : Int),
        objGet fields "id" = some (Json.num oldId) →
        mapGet pm (toI32 oldId) = none →
        rewriteMemberFields pm fields = fields) := by
  constructor
  · intro ids offset x hx
    unfold lookupId
    rw [mapGet_buildMapping]
    simp [hx, mapGet]
  · intro pm fields oldId hget hmiss
    unfold rewriteMemberFields
    rw [hget]
    unfold Json.asI64
    by_cases hr : i64Min ≤ oldId ∧ oldId ≤ i64Max
    · simp [hr, hmiss]
    · simp [hr]

theorem lookup_identity_on_miss_witness :
    (7 : Int) ∉ [(5 : Int), 9] ∧
    lookupId (buildMapping [] [5, 9] 1000 : Mapping) 7 = 7 ∧
    objGet [("id", Json.num 3)] "id" = some (Json.num 3) ∧
    mapGet ([(5, 1005)] : Mapping) (toI32 3) = none ∧
    rewriteMemberFields [(5, 1005)] [("id", Json.num 3)] = [("id", Json.num 3)] :=
  ⟨by decide,
   lookup_identity_on_miss.1 [5, 9] 1000 7 (by decide),
   rfl, by decide,
   lookup_identity_on_miss.2 [(5, 1005)] [("id", Json.num 3)] 3 rfl (by decide)⟩

/-- Claim C9 counterexample: mapping generation cannot fail.  On a duplicated
input id the loop just runs `HashMap::insert` twice and completes with a
well-formed mapping — no `DuplicateIdentifierError` exists anywhere in the
program. -/
theorem duplicate_ids_no_error :
    buildMapping [] [5, 5] 100 = ([(5, 105), (5, 105)] : Mapping) ∧
    lookupId (buildMapping [] [5, 5] 100 : Mapping) 5 = 105 := by
  exact ⟨rfl, rfl⟩

/-- Claim C9 amended: mapping generation performs no duplicate check; even when
the input id list contains duplicates it succeeds, the repeated inserts
overwrite each other with the same value, and every input id still maps to
id + offset. -/
theorem duplicate_ids_overwrite_harmless :
    ∀ (ids : List Int) (offset : Int), ¬ ids.Nodup →
      ∀ x ∈ ids, lookupId (buildMapping [] ids offset) x = x + offset := by
  intro ids offset _ x hx
  simp [lookupId, mapGet_buildMapping, hx]

theorem duplicate_ids_overwrite_harmless_witness :
    ¬ ([(5 : Int), 5].Nodup) ∧ (5 : Int) ∈ [(5 : Int), 5] ∧
    lookupId (buildMapping [] [5, 5] 1000 : Mapping) 5 = 5 + 1000 :=
  ⟨by decide, by decide,
   duplicate_ids_overwrite_harmless [5, 5] 1000 (by decide) 5 (by decide)⟩

/-- Claim C10: a clan row whose members value is NULL (read back as the empty
string) or the empty string skips the JSON rewriter entirely — no UPDATE,
no error — even though the empty string is not valid JSON and the rewriter
itself would reject it. -/
theorem empty_members_skipped :
    (∀ (pm : Mapping) (cid : Int) (rest : List (Int × Option String)),
        clanJsonScan pm ((cid, none) :: rest) = clanJsonScan pm rest) ∧
    (∀ (pm : Mapping) (cid : Int) (rest : List (Int × Option String)),
        clanJsonScan pm ((cid, some "") :: rest) = clanJsonScan pm rest) ∧
    Json.parse "" = none ∧
    (∀ pm : Mapping, update_clan_members_json pm "" = Except.error ()) := by
  refine ⟨?_, ?_, rfl, fun pm => rfl⟩
  · intro pm cid rest
    simp [clanJsonScan, Option.getD, String.isEmpty]
  · intro pm cid rest
    simp [clanJsonScan, Option.getD, String.isEmpty]

/-! ## Members rewriter lemmas -/

theorem parseToObj_eq_some {s : String} {f : List (String × Json)} :
    parseToObj s = some f ↔ Json.parse s = some (Json.obj f) := by
  unfold parseToObj
  cases h : Json.parse s with
  | none => simp
  | some j => cases j <;> simp

theorem memberPayload_nonstr {m : Json} (h : m.isStr = false) :
    memberPayload m = m.render := by
  cases m
  case str s => simp [Json.isStr] at h
  all_goals rfl

theorem updateMembersGo_str_step (pm : Mapping) (orig s : String)
    (rest : List Json) (acc : List String) (fields : List (String × Json))
    (hp : Json.parse s = some (Json.obj fields)) :
    updateMembersGo pm orig (Json.str s :: rest) acc =
      updateMembersGo pm orig rest
        (Json.render (Json.obj (rewriteMemberFields pm fields)) :: acc) := by
  conv_lhs => rw [updateMembersGo]
  simp [memberPayload, hp]

theorem updateMembersGo_fallback_step (pm : Mapping) (orig : String)
    (m : Json) (rest : List Json) (acc : List String)
    (hm : isNonStrObjElem m = true) :
    updateMembersGo pm orig (m :: rest) acc =
      update_clan_members_json_as_objects pm orig := by
  have hstr : m.isStr = false := by
    cases hs : m.isStr
    · rfl
    · unfold isNonStrObjElem at hm
      rw [hs] at hm
      simp at hm
  obtain ⟨fields, hf⟩ : ∃ f, parseToObj (Json.render m) = some f := by
    unfold isNonStrObjElem at hm
    rw [hstr] at hm
    simp at hm
    exact Option.isSome_iff_exists.mp hm
  have hp : Json.parse (memberPayload m) = some (Json.obj fields) := by
    rw [memberPayload_nonstr hstr]
    exact parseToObj_eq_some.mp hf
  cases m
  case str s => simp [Json.isStr] at hstr
  all_goals
    rw [updateMembersGo, hp]

theorem updateMembersGo_all_str (pm : Mapping) (orig : String) :
    ∀ (l : List Json) (acc : List String), l.all isStrObjElem = true →
      updateMembersGo pm orig l acc =
        Except.ok (Json.render (Json.arr
          (acc.reverse.map Json.str ++ l.map (strElemOut pm)))) := by
  intro l
  induction l with
  | nil =>
      intro acc _
      simp [updateMembersGo]
  | cons m rest ih =>
      intro acc hall
      rw [List.all_cons, Bool.and_eq_true] at hall
      obtain ⟨hm, hrest⟩ := hall
      cases m
      case str s =>
        obtain ⟨fields, hf⟩ : ∃ f, parseToObj s = some f := by
          unfold isStrObjElem at hm
          exact Option.isSome_iff_exists.mp hm
        have hp : Json.parse s = some (Json.obj fields) := parseToObj_eq_some.mp hf
        rw [updateMembersGo_str_step pm orig s rest acc fields hp, ih _ hrest]
        have hout : strElemOut pm (Json.str s) =
            Json.str (Json.render (Json.obj (rewriteMemberFields pm fields))) := by
          simp [strElemOut, rewriteStrPayload, hp]
        simp [hout, List.reverse_cons]
      all_goals (unfold isStrObjElem at hm; simp at hm)

theorem updateMembersGo_reaches_fallback (pm : Mapping) (orig : String)
    (m : Json) (rest : List Json) (hm : isNonStrObjElem m = true) :
    ∀ (pre : List Json) (acc : List String), pre.all isStrObjElem = true →
      updateMembersGo pm orig (pre ++ m :: rest) acc =
        update_clan_members_json_as_objects pm orig := by
  intro pre
  induction pre with
  | nil =>
      intro acc _
      exact updateMembersGo_fallback_step pm orig m rest acc hm
  | cons p ptail ih =>
      intro acc hall
      rw [List.all_cons, Bool.and_eq_true] at hall
      obtain ⟨hp1, hrest⟩ := hall
      cases p
      case str s =>
        obtain ⟨fields, hf⟩ : ∃ f, parseToObj s = some f := by
          unfold isStrObjElem at hp1
          exact Option.isSome_iff_exists.mp hp1
        have hp : Json.parse s = some (Json.obj fields) := parseToObj_eq_some.mp hf
        rw [List.cons_append,
          updateMembersGo_str_step pm orig s (ptail ++ m :: rest) acc fields hp]
        exact ih _ hrest
      all_goals (unfold isStrObjElem at hp1; simp at hp1)

theorem updateMembersGo_bad_payload (pm : Mapping) (orig t : String)
    (rest : List Json) (ht : Json.parse t = none) :
    ∀ (pre : List Json) (acc : List String), pre.all isStrObjElem = true →
      updateMembersGo pm orig (pre ++ Json.str t :: rest) acc = Except.error () := by
  intro pre
  induction pre with
  | nil =>
      intro acc _
      rw [List.nil_append, updateMembersGo]
      simp only [memberPayload]
      rw [ht]
  | cons p ptail ih =>
      intro acc hall
      rw [List.all_cons, Bool.and_eq_true] at hall
      obtain ⟨hp1, hrest⟩ := hall
      cases p
      case str s =>
        obtain ⟨fields, hf⟩ : ∃ f, parseToObj s = some f := by
          unfold isStrObjElem at hp1
          exact Option.isSome_iff_exists.mp hp1
        have hp : Json.parse s = some (Json.obj fields) := parseToObj_eq_some.mp hf
        rw [List.cons_append,
          updateMembersGo_str_step pm orig s (ptail ++ Json.str t :: rest) acc fields hp]
        exact ih _ hrest
      all_goals (unfold isStrObjElem at hp1; simp at hp1)

/-- Claim C4 counterexample: a mixed array (string-encoded element followed by a
raw object) is NOT re-encoded uniformly as raw objects: the code's fallback
leaves the string element exactly as it was (old id included), so the
output is still mixed. -/
theorem mixed_array_not_uniformly_reencoded :
    update_clan_members_json [(1, 101), (2, 102)]
        "[\"\x7b\\\"id\\\":1\x7d\",\x7b\"id\":2\x7d]" =
      Except.ok "[\"\x7b\\\"id\\\":1\x7d\",\x7b\"id\":102\x7d]" ∧
    "[\"\x7b\\\"id\\\":1\x7d\",\x7b\"id\":102\x7d]" ≠
      Json.render (Json.arr [Json.obj [("id", Json.num 101)],
        Json.obj [("id", Json.num 102)]]) := by
  exact ⟨rfl, by decide⟩

/-- Claim C4 amended: the rewriter preserves encoding per element, not per array.
An encoding-consistent all-strings array stays all-strings with every
payload rewritten; once a raw-object element is reached (all earlier
elements being string-encoded objects — in particular for a consistent
all-objects array), the whole array is re-serialized element-wise: raw
objects are rewritten as raw objects while string elements are passed
through completely unchanged, so an inconsistent array is NOT re-encoded
uniformly as raw objects. -/
theorem members_encoding_per_element :
    (∀ (pm : Mapping) (s : String) (l : List Json),
        Json.parse s = some (Json.arr l) →
        l.all isStrObjElem = true →
        update_clan_members_json pm s =
          Except.ok (Json.render (Json.arr (l.map (strElemOut pm))))) ∧
    (∀ (pm : Mapping) (s : String) (pre : List Json) (m : Json) (rest : List Json),
        Json.parse s = some (Json.arr (pre ++ m :: rest)) →
        pre.all isStrObjElem = true →
        isNonStrObjElem m = true →
        update_clan_members_json pm s =
          Except.ok (Json.render (Json.arr
            ((pre ++ m :: rest).map (rewriteElement pm))))) ∧
    (∀ (pm : Mapping) (t : String), rewriteElement pm (Json.str t) = Json.str t) := by
  refine ⟨?_, ?_, fun pm t => rfl⟩
  · intro pm s l hparse hall
    unfold update_clan_members_json
    rw [hparse]
    have h := updateMembersGo_all_str pm s l [] hall
    simpa using h
  · intro pm s pre m rest hparse hpre hm
    unfold update_clan_members_json
    rw [hparse]
    show updateMembersGo pm s (pre ++ m :: rest) [] =
      Except.ok (Json.render (Json.arr ((pre ++ m :: rest).map (rewriteElement pm))))
    rw [updateMembersGo_reaches_fallback pm s m rest hm pre [] hpre]
    unfold update_clan_members_json_as_objects
    rw [hparse]

theorem members_encoding_per_element_witness :
    Json.parse "[\"\x7b\\\"id\\\":1\x7d\"]" =
      some (Json.arr [Json.str "\x7b\"id\":1\x7d"]) ∧
    ([Json.str "\x7b\"id\":1\x7d"].all isStrObjElem = true) ∧
    update_clan_members_json [(1, 101)] "[\"\x7b\\\"id\\\":1\x7d\"]" =
      Except.ok (Json.render (Json.arr
        ([Json.str "\x7b\"id\":1\x7d"].map (strElemOut [(1, 101)])))) ∧
    Json.parse "[\x7b\"id\":2\x7d]" =
      some (Json.arr ([] ++ Json.obj [("id", Json.num 2)] :: [])) ∧
    isNonStrObjElem (Json.obj [("id", Json.num 2)]) = true ∧
    update_clan_members_json [(2, 102)] "[\x7b\"id\":2\x7d]" =
      Except.ok (Json.render (Json.arr
        (([] ++ Json.obj [("id", Json.num 2)] :: []).map (rewriteElement [(2, 102)])))) :=
  ⟨rfl, rfl,
   members_encoding_per_element.1 [(1, 101)] "[\"\x7b\\\"id\\\":1\x7d\"]"
     [Json.str "\x7b\"id\":1\x7d"] rfl rfl,
   rfl, rfl,
   members_encoding_per_element.2.1 [(2, 102)] "[\x7b\"id\":2\x7d]"
     [] (Json.obj [("id", Json.num 2)]) [] rfl rfl rfl⟩

/-- Claim C5 counterexample: an inner element payload that is not valid JSON does
NOT always fail: once a raw-object element has triggered the fallback, a
string element with unparsable payload is passed through without error. -/
theorem invalid_payload_after_fallback_ok :
    update_clan_members_json [(2, 102)] "[\x7b\"id\":2\x7d,\"notjson\"]" =
      Except.ok "[\x7b\"id\":102\x7d,\"notjson\"]" ∧
    Json.parse "notjson" = none := by
  exact ⟨rfl, rfl⟩

/-- Claim C5 amended: the rewrite fails when the outer text is not valid JSON, and
when the string-mode scan meets a string element with unparsable payload
before any raw-object element has triggered the fallback (after the
fallback, string elements pass through unchecked); an object with no `id`
field, or with a non-numeric one, is passed through unrewritten rather than
causing an error. -/
theorem members_error_conditions :
    (∀ (pm : Mapping) (s : String),
        Json.parse s = none → update_clan_members_json pm s = Except.error ()) ∧
    (∀ (pm : Mapping) (s t : String) (pre : List Json) (rest : List Json),
        Json.parse s = some (Json.arr (pre ++ Json.str t :: rest)) →
        pre.all isStrObjElem = true →
        Json.parse t = none →
        update_clan_members_json pm s = Except.error ()) ∧
    (∀ (pm : Mapping) (fields : List (String × Json)),
        objGet fields "id" = none → rewriteMemberFields pm fields = fields) ∧
    (∀ (pm : Mapping) (fields : List (String × Json)) (v : Json),
        objGet fields "id" = some v → Json.asI64 v = none →
        rewriteMemberFields pm fields = fields) := by
  refine ⟨?_, ?_, ?_, ?_⟩
  · intro pm s hs
    unfold update_clan_members_json
    rw [hs]
  · intro pm s t pre rest hparse hpre ht
    unfold update_clan_members_json
    rw [hparse]
    exact updateMembersGo_bad_payload pm s t rest ht pre [] hpre
  · intro pm fields hnone
    unfold rewriteMemberFields
    rw [hnone]
  · intro pm fields v hget hnum
    unfold rewriteMemberFields
    rw [hget]
    simp [hnum]

theorem members_error_conditions_witness :
    Json.parse "xx" = none ∧
    update_clan_members_json [] "xx" = Except.error () ∧
    Json.parse "[\"notjson\"]" = some (Json.arr ([] ++ Json.str "notjson" :: [])) ∧
    update_clan_members_json [] "[\"notjson\"]" = Except.error () ∧
    objGet [("x", Json.num 3)] "id" = none ∧
    rewriteMemberFields [(1, 101)] [("x", Json.num 3)] = [("x", Json.num 3)] ∧
    objGet [("id", Json.str "a")] "id" = some (Json.str "a") ∧
    Json.asI64 (Json.str "a") = none ∧
    rewriteMemberFields [(1, 101)] [("id", Json.str "a")] = [("id", Json.str "a")] :=
  ⟨rfl,
   members_error_conditions.1 [] "xx" rfl,
   rfl,
   members_error_conditions.2.1 [] "[\"notjson\"]" "notjson" [] [] rfl rfl rfl,
   rfl,
   members_error_conditions.2.2.1 [(1, 101)] [("x", Json.num 3)] rfl,
   rfl, rfl,
   members_error_conditions.2.2.2 [(1, 101)] [("id", Json.str "a")] (Json.str "a") rfl rfl⟩

/-! ## Orchestration lemmas -/

theorem andThen_eq_none {r : MergeState × Option MergeError}
    {f : MergeState → MergeState × Option MergeError} {st : MergeState}
    (h : andThen r f = (st, none)) :
    ∃ st1, r = (st1, none) ∧ f st1 = (st, none) := by
  obtain ⟨st0, err⟩ := r
  cases err with
  | none => exact ⟨st0, rfl, h⟩
  | some e => simp [andThen] at h

theorem stepStartsOf_nil : stepStartsOf [] = [] := rfl

theorem stepStartsOf_cons (e : Event) (l : List Event) :
    stepStartsOf (e :: l) =
      (match e with | Event.stepStart s => [s] | _ => []) ++ stepStartsOf l := by
  cases e <;> simp [stepStartsOf, List.filterMap_cons]

theorem stepStartsOf_append (a b : List Event) :
    stepStartsOf (a ++ b) = stepStartsOf a ++ stepStartsOf b := by
  simp [stepStartsOf, List.filterMap_append]

theorem stepStartsOf_map_insertRow (t : String) (g : Int → Int) (l : List Int) :
    stepStartsOf (List.map (fun i => Event.insertRow t (g i)) l) = [] := by
  induction l with
  | nil => rfl
  | cons a as ih =>
      rw [List.map_cons, stepStartsOf_cons]
      simpa using ih

theorem stepStartsOf_ensureEmits (env : Env) (dry : Bool) :
    stepStartsOf (ensureEmits env dry) = [StepName.ensureOldId] := by
  unfold ensureEmits
  cases env.faults.ensureOldId <;> cases env.accountHasOldId <;>
    cases env.playerHasOldId <;> cases dry <;>
    simp [stepStartsOf_cons, stepStartsOf_append, stepStartsOf]

theorem stepStartsOf_accEmits (cfg : MergeCfg) (env : Env) (dry : Bool) :
    stepStartsOf (accEmits cfg env dry) = [StepName.accounts] := by
  unfold accEmits
  rw [stepStartsOf_cons]
  cases env.faults.accounts <;> cases dry <;>
    simp [stepStartsOf, stepStartsOf_map_insertRow]

theorem stepStartsOf_playersEmits (cfg : MergeCfg) (env : Env) (dry : Bool) :
    stepStartsOf (playersEmits cfg env dry) = [StepName.players] := by
  unfold playersEmits
  rw [stepStartsOf_cons]
  cases env.faults.players <;> cases dry <;> simp [stepStartsOf, List.filterMap]

theorem stepStartsOf_clanJsonScan (pm : Mapping) (cs : List (Int × Option String)) :
    stepStartsOf (clanJsonScan pm cs).1 = [] := by
  induction cs with
  | nil => rfl
  | cons c rest ih =>
      obtain ⟨cid, mem⟩ := c
      unfold clanJsonScan
      by_cases hs : (mem.getD "").isEmpty
      · simpa [hs] using ih
      · simp only [hs]
        cases hupd : update_clan_members_json pm (mem.getD "") with
        | ok u => simpa [stepStartsOf_cons] using ih
        | error u => simp [stepStartsOf]

theorem stepStartsOf_clansEmits (cfg : MergeCfg) (env : Env) (dry : Bool) (pm : Mapping) :
    stepStartsOf (clansEmitsErr cfg env dry pm).1 = [StepName.clans] := by
  unfold clansEmitsErr
  cases env.faults.clans with
  | true => simp [stepStartsOf_cons, stepStartsOf]
  | false =>
      cases dry with
      | true => simp [stepStartsOf_cons, stepStartsOf]
      | false =>
          simp only [Bool.false_eq_true, if_false, if_true]
          cases hscan : clanJsonScan pm env.db.clans with
          | mk evs err =>
              have hevs : stepStartsOf evs = [] := by
                have h := stepStartsOf_clanJsonScan pm env.db.clans
                rw [hscan] at h
                exact h
              cases err <;>
                simp [stepStartsOf_cons, stepStartsOf_append, hevs, stepStartsOf_nil]

theorem stepStartsOf_giftEmits (env : Env) (dry : Bool) (pm : Mapping) :
    stepStartsOf (giftEmits env dry pm) = [StepName.gifts] := by
  unfold giftEmits
  rw [stepStartsOf_cons]
  cases env.faults.gifts <;> cases dry <;>
    simp [stepStartsOf, stepStartsOf_map_insertRow]

theorem stepStartsOf_otherEmits (env : Env) (dry : Bool) (pm : Mapping) :
    stepStartsOf (otherEmits env dry pm) = [StepName.others] := by
  unfold otherEmits
  rw [stepStartsOf_cons]
  cases env.faults.others <;> cases dry <;>
    simp [stepStartsOf, stepStartsOf_map_insertRow]

theorem stepStartsOf_verifyEmits (env : Env) :
    stepStartsOf (verifyEmits env) = [StepName.verify] := by
  unfold verifyEmits
  rw [stepStartsOf_cons]
  cases env.faults.verify <;> simp [stepStartsOf, List.filterMap]

theorem stepStartsOf_startState (dry : Bool) :
    stepStartsOf (startState dry).events = [] := by
  cases dry <;> rfl

theorem runMerge_fault_accounts (cfg : MergeCfg) (env : Env) (dry : Bool) (st0 : MergeState)
    (h1 : env.faults.ensureOldId = false) (h2 : env.faults.accounts = true) :
    (runMerge cfg env dry st0).2 = some (MergeError.dbFault StepName.accounts) ∧
    stepStartsOf (runMerge cfg env dry st0).1.events =
      stepStartsOf st0.events ++ [StepName.ensureOldId, StepName.accounts] := by
  unfold runMerge ensureStep mergeAccounts
  simp [h1, h2, andThen, stepStartsOf_append, stepStartsOf_ensureEmits,
    stepStartsOf_accEmits, stepStartsOf_cons, stepStartsOf_nil]

theorem runMerge_fault_players (cfg : MergeCfg) (env : Env) (dry : Bool) (st0 : MergeState)
    (h1 : env.faults.ensureOldId = false) (h2 : env.faults.accounts = false)
    (h3 : env.faults.players = true) :
    (runMerge cfg env dry st0).2 = some (MergeError.dbFault StepName.players) ∧
    stepStartsOf (runMerge cfg env dry st0).1.events =
      stepStartsOf st0.events ++
        [StepName.ensureOldId, StepName.accounts, StepName.players] := by
  unfold runMerge ensureStep mergeAccounts mergePlayers
  simp [h1, h2, h3, andThen, stepStartsOf_append, stepStartsOf_ensureEmits,
    stepStartsOf_accEmits, stepStartsOf_playersEmits, stepStartsOf_cons, stepStartsOf_nil]

theorem runMerge_fault_clans (cfg : MergeCfg) (env : Env) (dry : Bool) (st0 : MergeState)
    (h1 : env.faults.ensureOldId = false) (h2 : env.faults.accounts = false)
    (h3 : env.faults.players = false) (h4 : env.faults.clans = true) :
    (runMerge cfg env dry st0).2 = some (MergeError.dbFault StepName.clans) ∧
    stepStartsOf (runMerge cfg env dry st0).1.events =
      stepStartsOf st0.events ++
        [StepName.ensureOldId, StepName.accounts, StepName.players, StepName.clans] := by
  unfold runMerge ensureStep mergeAccounts mergePlayers mergeClans clansEmitsErr
  simp [h1, h2, h3, h4, andThen, stepStartsOf_append, stepStartsOf_ensureEmits,
    stepStartsOf_accEmits, stepStartsOf_playersEmits, stepStartsOf_cons, stepStartsOf_nil]

theorem runMerge_fault_gifts (cfg : MergeCfg) (env : Env) (dry : Bool) (st0 : MergeState)
    (h1 : env.faults.ensureOldId = false) (h2 : env.faults.accounts = false)
    (h3 : env.faults.players = false) (h4 : env.faults.clans = false)
    (h5 : env.faults.gifts = true)
    (hjson : (clanJsonScan (buildMapping st0.maps.player env.db.players cfg.id_offset)
        env.db.clans).2 = none) :
    (runMerge cfg env dry st0).2 = some (MergeError.dbFault StepName.gifts) ∧
    stepStartsOf (runMerge cfg env dry st0).1.events =
      stepStartsOf st0.events ++
        [StepName.ensureOldId, StepName.accounts, StepName.players,
         StepName.clans, StepName.gifts] := by
  unfold runMerge ensureStep mergeAccounts mergePlayers mergeClans mergeGifts
  cases dry with
  | true =>
      simp [h1, h2, h3, h4, h5, andThen, clansEmitsErr, stepStartsOf_append,
        stepStartsOf_ensureEmits, stepStartsOf_accEmits, stepStartsOf_playersEmits,
        stepStartsOf_giftEmits, stepStartsOf_cons, stepStartsOf_nil]
  | false =>
      cases hscan : clanJsonScan (buildMapping st0.maps.player env.db.players cfg.id_offset)
          env.db.clans with
      | mk evs err =>
          rw [hscan] at hjson
          have herr : err = none := hjson
          subst herr
          have hevs : stepStartsOf evs = [] := by
            have h := stepStartsOf_clanJsonScan
              (buildMapping st0.maps.player env.db.players cfg.id_offset) env.db.clans
            rw [hscan] at h
            exact h
          simp [h1, h2, h3, h4, h5, andThen, clansEmitsErr, hscan, hevs,
            stepStartsOf_append, stepStartsOf_ensureEmits, stepStartsOf_accEmits,
            stepStartsOf_playersEmits, stepStartsOf_giftEmits, stepStartsOf_cons,
            stepStartsOf_nil]

theorem runMerge_fault_others (cfg : MergeCfg) (env : Env) (dry : Bool) (st0 : MergeState)
    (h1 : env.faults.ensureOldId = false) (h2 : env.faults.accounts = false)
    (h3 : env.faults.players = false) (h4 : env.faults.clans = false)
    (h5 : env.faults.gifts = false) (h6 : env.faults.others = true)
    (hjson : (clanJsonScan (buildMapping st0.maps.player env.db.players cfg.id_offset)
        env.db.clans).2 = none) :
    (runMerge cfg env dry st0).2 = some (MergeError.dbFault StepName.others) ∧
    stepStartsOf (runMerge cfg env dry st0).1.events =
      stepStartsOf st0.events ++
        [StepName.ensureOldId, StepName.accounts, StepName.players,
         StepName.clans, StepName.gifts, StepName.others] := by
  unfold runMerge ensureStep mergeAccounts mergePlayers mergeClans mergeGifts mergeOthers
  cases dry with
  | true =>
      simp [h1, h2, h3, h4, h5, h6, andThen, clansEmitsErr, stepStartsOf_append,
        stepStartsOf_ensureEmits, stepStartsOf_accEmits, stepStartsOf_playersEmits,
        stepStartsOf_giftEmits, stepStartsOf_otherEmits, stepStartsOf_cons, stepStartsOf_nil]
  | false =>
      cases hscan : clanJsonScan (buildMapping st0.maps.player env.db.players cfg.id_offset)
          env.db.clans with
      | mk evs err =>
          rw [hscan] at hjson
          have herr : err = none := hjson
          subst herr
          have hevs : stepStartsOf evs = [] := by
            have h := stepStartsOf_clanJsonScan
              (buildMapping st0.maps.player env.db.players cfg.id_offset) env.db.clans
            rw [hscan] at h
            exact h
          simp [h1, h2, h3, h4, h5, h6, andThen, clansEmitsErr, hscan, hevs,
            stepStartsOf_append, stepStartsOf_ensureEmits, stepStartsOf_accEmits,
            stepStartsOf_playersEmits, stepStartsOf_giftEmits, stepStartsOf_otherEmits,
            stepStartsOf_cons, stepStartsOf_nil]

theorem execute_err_of_runMerge (cfg : MergeCfg) (env : Env) (dry aC : Bool) (e : MergeError)
    (h : (runMerge cfg env dry (startState dry)).2 = some e) :
    (execute cfg env dry true aC).2 = some e ∧
    stepStartsOf (execute cfg env dry true aC).1.events =
      stepStartsOf (runMerge cfg env dry (startState dry)).1.events ∧
    (dry = false → ∃ pre, (execute cfg env dry true aC).1.events =
      pre ++ [Event.rollbackTxn 1, Event.rollbackTxn 2]) := by
  cases hr : runMerge cfg env dry (startState dry) with
  | mk st err =>
      rw [hr] at h
      have herr : err = some e := h
      subst herr
      cases dry with
      | true =>
          refine ⟨by simp [execute, hr], by simp [execute, hr], ?_⟩
          intro hfalse
          exact absurd hfalse (by decide)
      | false =>
          refine ⟨by simp [execute, hr], ?_, fun _ => ⟨st.events, by simp [execute, hr]⟩⟩
          simp [execute, hr, stepStartsOf_append, stepStartsOf_cons, stepStartsOf_nil]

theorem execute_ok (cfg : MergeCfg) (env : Env) (aC : Bool) (st : MergeState)
    (h : runMerge cfg env false (startState false) = (st, none)) :
    execute cfg env false true aC =
      ({ st with events := (st.events ++ [Event.commitPrompt]) ++
          (if aC then [Event.commitTxn 1, Event.commitTxn 2]
           else [Event.rollbackTxn 1, Event.rollbackTxn 2]) }, none) := by
  cases aC <;> simp [execute, h]

/-- Claim C3: if any entity merge step's store I/O fails, the run stops with that
step's error: no downstream merger (and no verification) ever starts, and
in live mode the final actions are the rollback of both transactions. -/
theorem step_failure_aborts_run :
    (∀ (cfg : MergeCfg) (env : Env) (dry aC : Bool),
      env.faults.ensureOldId = false → env.faults.accounts = true →
      (execute cfg env dry true aC).2 = some (MergeError.dbFault StepName.accounts) ∧
      stepStartsOf (execute cfg env dry true aC).1.events =
        [StepName.ensureOldId, StepName.accounts] ∧
      (dry = false → ∃ pre, (execute cfg env dry true aC).1.events =
        pre ++ [Event.rollbackTxn 1, Event.rollbackTxn 2])) ∧
    (∀ (cfg : MergeCfg) (env : Env) (dry aC : Bool),
      env.faults.ensureOldId = false → env.faults.accounts = false →
      env.faults.players = true →
      (execute cfg env dry true aC).2 = some (MergeError.dbFault StepName.players) ∧
      stepStartsOf (execute cfg env dry true aC).1.events =
        [StepName.ensureOldId, StepName.accounts, StepName.players] ∧
      (dry = false → ∃ pre, (execute cfg env dry true aC).1.events =
        pre ++ [Event.rollbackTxn 1, Event.rollbackTxn 2])) ∧
    (∀ (cfg : MergeCfg) (env : Env) (dry aC : Bool),
      env.faults.ensureOldId = false → env.faults.accounts = false →
      env.faults.players = false → env.faults.clans = true →
      (execute cfg env dry true aC).2 = some (MergeError.dbFault StepName.clans) ∧
      stepStartsOf (execute cfg env dry true aC).1.events =
        [StepName.ensureOldId, StepName.accounts, StepName.players, StepName.clans] ∧
      (dry = false → ∃ pre, (execute cfg env dry true aC).1.events =
        pre ++ [Event.rollbackTxn 1, Event.rollbackTxn 2])) ∧
    (∀ (cfg : MergeCfg) (env : Env) (dry aC : Bool),
      env.faults.ensureOldId = false → env.faults.accounts = false →
      env.faults.players = false → env.faults.clans = false →
      env.faults.gifts = true →
      (clanJsonScan (buildMapping [] env.db.players cfg.id_offset) env.db.clans).2 = none →
      (execute cfg env dry true aC).2 = some (MergeError.dbFault StepName.gifts) ∧
      stepStartsOf (execute cfg env dry true aC).1.events =
        [StepName.ensureOldId, StepName.accounts, StepName.players,
         StepName.clans, StepName.gifts] ∧
      (dry = false → ∃ pre, (execute cfg env dry true aC).1.events =
        pre ++ [Event.rollbackTxn 1, Event.rollbackTxn 2])) ∧
    (∀ (cfg : MergeCfg) (env : Env) (dry aC : Bool),
      env.faults.ensureOldId = false → env.faults.accounts = false →
      env.faults.players = false → env.faults.clans = false →
      env.faults.gifts = false → env.faults.others = true →
      (clanJsonScan (buildMapping [] env.db.players cfg.id_offset) env.db.clans).2 = none →
      (execute cfg env dry true aC).2 = some (MergeError.dbFault StepName.others) ∧
      stepStartsOf (execute cfg env dry true aC).1.events =
        [StepName.ensureOldId, StepName.accounts, StepName.players,
         StepName.clans, StepName.gifts, StepName.others] ∧
      (dry = false → ∃ pre, (execute cfg env dry true aC).1.events =
        pre ++ [Event.rollbackTxn 1, Event.rollbackTxn 2])) := by
  refine ⟨?_, ?_, ?_, ?_, ?_⟩
  · intro cfg env dry aC h1 h2
    have hrm := runMerge_fault_accounts cfg env dry (startState dry) h1 h2
    have hex := execute_err_of_runMerge cfg env dry aC _ hrm.1
    refine ⟨hex.1, ?_, hex.2.2⟩
    rw [hex.2.1, hrm.2, stepStartsOf_startState]
    rfl
  · intro cfg env dry aC h1 h2 h3
    have hrm := runMerge_fault_players cfg env dry (startState dry) h1 h2 h3
    have hex := execute_err_of_runMerge cfg env dry aC _ hrm.1
    refine ⟨hex.1, ?_, hex.2.2⟩
    rw [hex.2.1, hrm.2, stepStartsOf_startState]
    rfl
  · intro cfg env dry aC h1 h2 h3 h4
    have hrm := runMerge_fault_clans cfg env dry (startState dry) h1 h2 h3 h4
    have hex := execute_err_of_runMerge cfg env dry aC _ hrm.1
    refine ⟨hex.1, ?_, hex.2.2⟩
    rw [hex.2.1, hrm.2, stepStartsOf_startState]
    rfl
  · intro cfg env dry aC h1 h2 h3 h4 h5 hjson
    have hrm := runMerge_fault_gifts cfg env dry (startState dry) h1 h2 h3 h4 h5
      (by
        have hsm : (startState dry).maps.player = [] := by cases dry <;> rfl
        rw [hsm]
        exact hjson)
    have hex := execute_err_of_runMerge cfg env dry aC _ hrm.1
    refine ⟨hex.1, ?_, hex.2.2⟩
    rw [hex.2.1, hrm.2, stepStartsOf_startState]
    rfl
  · intro cfg env dry aC h1 h2 h3 h4 h5 h6 hjson
    have hrm := runMerge_fault_others cfg env dry (startState dry) h1 h2 h3 h4 h5 h6
      (by
        have hsm : (startState dry).maps.player = [] := by cases dry <;> rfl
        rw [hsm]
        exact hjson)
    have hex := execute_err_of_runMerge cfg env dry aC _ hrm.1
    refine ⟨hex.1, ?_, hex.2.2⟩
    rw [hex.2.1, hrm.2, stepStartsOf_startState]
    rfl

theorem step_failure_aborts_run_witness :
    envF.faults.ensureOldId = false ∧ envF.faults.accounts = true ∧
    (execute cfg0 envF false true true).2 = some (MergeError.dbFault StepName.accounts) ∧
    stepStartsOf (execute cfg0 envF false true true).1.events =
      [StepName.ensureOldId, StepName.accounts] ∧
    (∃ pre, (execute cfg0 envF false true true).1.events =
      pre ++ [Event.rollbackTxn 1, Event.rollbackTxn 2]) := by
  have h := step_failure_aborts_run.1 cfg0 envF false true rfl rfl
  exact ⟨rfl, rfl, h.1, h.2.1, h.2.2 rfl⟩

/-! ## Dry-run isolation -/

theorem andThen_maps (r : MergeState × Option MergeError)
    (f : MergeState → MergeState × Option MergeError)
    (hf : ∀ st, ((f st).1).maps = st.maps) :
    ((andThen r f).1).maps = r.1.maps := by
  obtain ⟨st0, err⟩ := r
  cases err
  · exact hf st0
  · rfl

theorem runMerge_maps (cfg : MergeCfg) (env : Env) (dry : Bool) (st0 : MergeState) :
    ((runMerge cfg env dry st0).1).maps = mapsAfter cfg env st0.maps := by
  unfold runMerge
  rw [andThen_maps _ (verifyStep env) (fun st => rfl)]
  rw [andThen_maps _ _ (fun st => rfl)]
  rw [andThen_maps _ (mergeOthers cfg env dry) (fun st => rfl)]
  rw [andThen_maps _ (mergeGifts cfg env dry) (fun st => rfl)]
  unfold mapsAfter ensureStep mergeAccounts mergePlayers mergeClans
  cases h1 : env.faults.ensureOldId <;> cases h2 : env.faults.accounts <;>
    cases h3 : env.faults.players <;> cases h4 : env.faults.clans <;>
    simp [andThen, h1, h2, h3, h4]

theorem execute_maps (cfg : MergeCfg) (env : Env) (dry aP aC : Bool)
    (h : dry = true ∨ aP = true) :
    (execute cfg env dry aP aC).1.maps = mapsAfter cfg env initState.maps := by
  have hrm := runMerge_maps cfg env dry (startState dry)
  have hstart : (startState dry).maps = initState.maps := by cases dry <;> rfl
  rw [hstart] at hrm
  cases hr : runMerge cfg env dry (startState dry) with
  | mk st err =>
      rw [hr] at hrm
      cases dry with
      | true =>
          cases err <;> simpa [execute, hr] using hrm
      | false =>
          have haP : aP = true := by
            cases h with
            | inl h1 => exact absurd h1 (by decide)
            | inr h2 => exact h2
          subst haP
          cases err with
          | none => cases aC <;> simpa [execute, hr] using hrm
          | some e => simpa [execute, hr] using hrm

theorem andThen_events_all (P : Event → Bool) (r : MergeState × Option MergeError)
    (f : MergeState → MergeState × Option MergeError)
    (hr : r.1.events.all P = true)
    (hf : ∀ st, st.events.all P = true → ((f st).1).events.all P = true) :
    ((andThen r f).1).events.all P = true := by
  obtain ⟨st0, err⟩ := r
  cases err
  · exact hf st0 hr
  · exact hr

theorem accEmits_dry (cfg : MergeCfg) (env : Env) :
    accEmits cfg env true = [Event.stepStart StepName.accounts] := by
  cases h : env.faults.accounts <;> simp [accEmits, h]

theorem playersEmits_dry (cfg : MergeCfg) (env : Env) :
    playersEmits cfg env true = [Event.stepStart StepName.players] := by
  cases h : env.faults.players <;> simp [playersEmits, h]

theorem clansEmits_dry (cfg : MergeCfg) (env : Env) (pm : Mapping) :
    (clansEmitsErr cfg env true pm).1 = [Event.stepStart StepName.clans] := by
  cases h : env.faults.clans <;> simp [clansEmitsErr, h]

theorem giftEmits_dry (env : Env) (pm : Mapping) :
    giftEmits env true pm = [Event.stepStart StepName.gifts] := by
  cases h : env.faults.gifts <;> simp [giftEmits, h]

theorem otherEmits_dry (env : Env) (pm : Mapping) :
    otherEmits env true pm = [Event.stepStart StepName.others] := by
  cases h : env.faults.others <;> simp [otherEmits, h]

theorem ensureEmits_dry_ok (env : Env) :
    (ensureEmits env true).all (fun e => !(Event.isForbiddenInDry e)) = true := by
  cases h1 : env.faults.ensureOldId <;> cases h2 : env.accountHasOldId <;>
    cases h3 : env.playerHasOldId <;>
    simp [ensureEmits, h1, h2, h3, Event.isForbiddenInDry]

theorem verifyEmits_ok (env : Env) :
    (verifyEmits env).all (fun e => !(Event.isForbiddenInDry e)) = true := by
  cases h : env.faults.verify <;> simp [verifyEmits, h, Event.isForbiddenInDry]

theorem all_append_events {P : Event → Bool} {a b : List Event}
    (ha : a.all P = true) (hb : b.all P = true) : (a ++ b).all P = true := by
  rw [List.all_append, ha, hb]
  rfl

theorem runMerge_dry_events_ok (cfg : MergeCfg) (env : Env) (st0 : MergeState)
    (h0 : st0.events.all (fun e => !(Event.isForbiddenInDry e)) = true) :
    ((runMerge cfg env true st0).1).events.all
      (fun e => !(Event.isForbiddenInDry e)) = true := by
  unfold runMerge
  apply andThen_events_all
  · apply andThen_events_all
    · apply andThen_events_all
      · apply andThen_events_all
        · apply andThen_events_all
          · apply andThen_events_all
            · apply andThen_events_all
              · exact all_append_events (all_append_events h0 rfl) (ensureEmits_dry_ok env)
              · intro st hst
                exact all_append_events hst (by rw [accEmits_dry]; rfl)
            · intro st hst
              exact all_append_events hst (by rw [playersEmits_dry]; rfl)
          · intro st hst
            exact all_append_events hst (by rw [clansEmits_dry]; rfl)
        · intro st hst
          exact all_append_events hst (by rw [giftEmits_dry]; rfl)
      · intro st hst
        exact all_append_events hst (by rw [otherEmits_dry]; rfl)
    · intro st hst
      exact all_append_events hst rfl
  · intro st hst
    exact all_append_events hst (verifyEmits_ok env)

theorem execute_dry_events_ok (cfg : MergeCfg) (env : Env) (aP aC : Bool) :
    ((execute cfg env true aP aC).1).events.all
      (fun e => !(Event.isForbiddenInDry e)) = true := by
  have hrun := runMerge_dry_events_ok cfg env (startState true) (by rfl)
  cases hr : runMerge cfg env true (startState true) with
  | mk st err =>
      rw [hr] at hrun
      cases err <;> simpa [execute, hr] using hrun

/-- Claim C7: a dry run never opens or commits a transaction and issues no
write — no ALTER, no INSERT, no UPDATE, no temp-table management — against
the target store (so target row counts cannot change), while the account,
player and clan mappings end up exactly as in a live run over the same
source data. -/
theorem dry_run_isolation :
    ∀ (cfg : MergeCfg) (env : Env) (aP aC aC' : Bool),
      ((execute cfg env true aP aC).1).events.all
        (fun e => !(Event.isForbiddenInDry e)) = true ∧
      (execute cfg env true aP aC).1.maps = (execute cfg env false true aC').1.maps := by
  intro cfg env aP aC aC'
  refine ⟨execute_dry_events_ok cfg env aP aC, ?_⟩
  rw [execute_maps cfg env true aP aC (Or.inl rfl),
    execute_maps cfg env false true aC' (Or.inr rfl)]

/-! ## Verification placement -/

theorem runMerge_verify_fault_ne_none (cfg : MergeCfg) (env : Env) (dry : Bool)
    (st0 : MergeState) (h : env.faults.verify = true) :
    (runMerge cfg env dry st0).2 ≠ none := by
  intro hnone
  have hfull : runMerge cfg env dry st0 = ((runMerge cfg env dry st0).1, none) := by
    rw [← hnone]
  unfold runMerge at hfull
  obtain ⟨st1, _, hver⟩ := andThen_eq_none hfull
  have h2 := congrArg Prod.snd hver
  simp [verifyStep, h] at h2

/-- Claim C8 counterexample: in a successful live run the verification report is
emitted strictly BEFORE the commit prompt, not after the commit decision as
claimed. -/
theorem verify_before_commit_decision :
    ((execute cfg0 env0 false true true).1.events.findIdx
        (fun e => match e with | Event.verifyReport _ _ => true | _ => false)) <
      ((execute cfg0 env0 false true true).1.events.findIdx
        (fun e => e == Event.commitPrompt)) ∧
    Event.commitPrompt ∈ (execute cfg0 env0 false true true).1.events ∧
    ((execute cfg0 env0 false true true).1.events.any
        (fun e => match e with | Event.verifyReport _ _ => true | _ => false)) = true := by
  refine ⟨by decide, by decide, by decide⟩

/-- Claim C8 amended: verification is the LAST step of the merge sequence, so its
report is emitted before the commit decision, and a failure of its queries
aborts the run (with rollback) rather than being non-fatal; what does hold
is that the report itself never influences the decision — after the report
the run always continues with the commit prompt and the outcome is fixed by
the operator's answer alone — and the detailed orphan sample is capped at
20 rows next to a full count. -/
theorem verify_nonblocking_capped :
    (∀ env : Env, env.faults.verify = false →
      verifyEmits env = [Event.stepStart StepName.verify,
        Event.verifyReport (verifyOrphans env).length
          ((verifyOrphans env).take 20).length] ∧
      ((verifyOrphans env).take 20).length ≤ 20) ∧
    (∀ (cfg : MergeCfg) (env : Env) (aC : Bool) (st : MergeState),
      execute cfg env false true aC = (st, none) →
      ∃ pre t l, st.events =
        pre ++ [Event.stepStart StepName.verify, Event.verifyReport t l,
          Event.commitPrompt] ++
        (if aC then [Event.commitTxn 1, Event.commitTxn 2]
         else [Event.rollbackTxn 1, Event.rollbackTxn 2])) ∧
    (∀ (cfg : MergeCfg) (env : Env) (aC : Bool) (st : MergeState) (e : MergeError),
      execute cfg env false true aC = (st, some e) →
      ∃ pre, st.events = pre ++ [Event.rollbackTxn 1, Event.rollbackTxn 2]) ∧
    (∀ (cfg : MergeCfg) (env : Env) (dry : Bool) (st0 : MergeState),
      env.faults.verify = true → (runMerge cfg env dry st0).2 ≠ none) := by
  refine ⟨?_, ?_, ?_, fun cfg env dry st0 h => runMerge_verify_fault_ne_none cfg env dry st0 h⟩
  · intro env h
    refine ⟨by simp [verifyEmits, h], ?_⟩
    simp [List.length_take]
  · intro cfg env aC st h
    cases hr : runMerge cfg env false (startState false) with
    | mk rst rerr =>
        cases rerr with
        | some e =>
            exfalso
            have hex := execute_err_of_runMerge cfg env false aC e (by rw [hr])
            have h2 := hex.1
            rw [h] at h2
            exact Option.noConfusion h2
        | none =>
            have hex := execute_ok cfg env aC rst hr
            have hst : st = { rst with events := (rst.events ++ [Event.commitPrompt]) ++
                (if aC then [Event.commitTxn 1, Event.commitTxn 2]
                 else [Event.rollbackTxn 1, Event.rollbackTxn 2]) } := by
              have h3 := h.symm.trans hex
              exact congrArg Prod.fst h3
            unfold runMerge at hr
            obtain ⟨st1, _, hver⟩ := andThen_eq_none hr
            have hvf : env.faults.verify = false := by
              cases hv : env.faults.verify
              · rfl
              · exfalso
                have h2 := congrArg Prod.snd hver
                simp [verifyStep, hv] at h2
            have hrev : rst.events = st1.events ++ verifyEmits env := by
              have h2 := congrArg (fun p => p.1.events) hver
              exact h2.symm
            have hemits : verifyEmits env = [Event.stepStart StepName.verify,
                Event.verifyReport (verifyOrphans env).length
                  ((verifyOrphans env).take 20).length] := by
              simp [verifyEmits, hvf]
            refine ⟨st1.events, (verifyOrphans env).length,
              ((verifyOrphans env).take 20).length, ?_⟩
            rw [hst, hrev, hemits]
            simp [List.append_assoc]
  · intro cfg env aC st e h
    cases hr : runMerge cfg env false (startState false) with
    | mk rst rerr =>
        cases rerr with
        | none =>
            exfalso
            have hex := execute_ok cfg env aC rst hr
            have h2 := (h.symm.trans hex)
            have h3 := congrArg Prod.snd h2
            exact Option.noConfusion h3
        | some e2 =>
            have hex := execute_err_of_runMerge cfg env false aC e2 (by rw [hr])
            have h3 := hex.2.2 rfl
            rw [h] at h3
            exact h3

theorem verify_nonblocking_capped_witness :
    env0.faults.verify = false ∧
    (verifyEmits env0 = [Event.stepStart StepName.verify,
        Event.verifyReport (verifyOrphans env0).length
          ((verifyOrphans env0).take 20).length] ∧
      ((verifyOrphans env0).take 20).length ≤ 20) ∧
    (∃ pre t l, ((execute cfg0 env0 false true true).1).events =
      pre ++ [Event.stepStart StepName.verify, Event.verifyReport t l,
        Event.commitPrompt] ++
      (if true then [Event.commitTxn 1, Event.commitTxn 2]
       else [Event.rollbackTxn 1, Event.rollbackTxn 2])) ∧
    envV.faults.verify = true ∧
    (runMerge cfg0 envV false (startState false)).2 ≠ none :=
  ⟨rfl,
   verify_nonblocking_capped.1 env0 rfl,
   verify_nonblocking_capped.2.1 cfg0 env0 true
     ((execute cfg0 env0 false true true).1) rfl,
   rfl,
   verify_nonblocking_capped.2.2.2 cfg0 envV false (startState false) rfl⟩

end MergeTool
